import Mathlib

/-!
Verification of the `s3-resource` crate's core adapter, `src/resources/object.rs`.

The file shallowly embeds the `Object` handle together with its `refresh_metadata`
operation and its `Read::read` / `Seek::seek` implementations.  Machine integers
are modelled as `Nat` (for `usize` and `u64` magnitudes) and `Int` (for `i64`
offsets), with the two's-complement wrap of the source's unchecked arithmetic
made explicit where it matters (`readRangeEnd`, `wrapNegI64`, `wrapAddU64`);
checked conversions (`usize::try_from`, `u64::try_from`) are `Option`-valued.
The remote service and the tokio bridge are external collaborators: every
network interaction is passed in as an explicit oracle argument (a
`HeadObjectResult` for the metadata request, a range-fetch function for
`get_range`), so the bridged functions stay pure and executable.
-/

namespace S3Res

/-- Largest value of the pointer-sized unsigned integer `usize` on the modelled
64-bit target. -/
def USIZE_MAX : Nat := 18446744073709551615

/-- Largest value of `u64`; on the 64-bit target it coincides with `USIZE_MAX`. -/
def U64_MAX : Nat := 18446744073709551615

/-- Modulus of 64-bit unsigned arithmetic. -/
def U64_MOD : Nat := 18446744073709551616

/-- Smallest value of `i64`. -/
def I64_MIN : Int := -9223372036854775808

/-- Largest value of `i64`. -/
def I64_MAX : Int := 9223372036854775807

/-- The conversion `u64::try_from(x : usize)` (object.rs lines 198, 211, 239, 261):
succeeds exactly when the value fits `u64`. -/
def u64TryFromUsize (n : Nat) : Option Nat :=
  if n ≤ U64_MAX then some n else none

/-- The conversion `usize::try_from(x : u64)` (object.rs line 203): succeeds
exactly when the value fits `usize`. -/
def usizeTryFromU64 (n : Nat) : Option Nat :=
  if n ≤ USIZE_MAX then some n else none

/-- The conversion `usize::try_from(x : i64)` (object.rs lines 88, 218, 228, 246,
255): succeeds exactly when the value is a representable non-negative magnitude. -/
def usizeTryFromI64 (s : Int) : Option Nat :=
  if 0 ≤ s ∧ s ≤ (USIZE_MAX : Int) then some s.toNat else none

/-- The unchecked `i64` negation `-s` (object.rs lines 218, 228, 246, 255).
Negating `i64::MIN` overflows; under the default release profile the value
wraps back to `i64::MIN` (two's complement). -/
def wrapNegI64 (s : Int) : Int :=
  if s = I64_MIN then I64_MIN else -s

/-- The unchecked `u64` addition at object.rs line 244
(`u64::try_from(self.position)? + u64::try_from(s).unwrap()`): wraps modulo
`2^64` under the default release profile. -/
def wrapAddU64 (a b : Nat) : Nat := (a + b) % U64_MOD

/-- The unchecked `usize` expression `self.position + num_bytes_to_read - 1`
from the range computation in `read` (object.rs line 140), with 64-bit wrap:
in particular the subtraction underflows to `USIZE_MAX` when both summands
are zero. -/
def readRangeEnd (p n : Nat) : Nat := (p + n + USIZE_MAX) % U64_MOD

/-- The per-object state of `Object` (object.rs lines 9-16).  The
`aws_sdk_s3::Client` field is an opaque shared transport handle with no
observable state of its own; the network calls it mediates are passed to the
operations below as explicit oracles instead. -/
structure Object where
  bucket_name : String
  key : String
  position : Nat
  length : Option Nat
  last_modified : Option Int
  deriving DecidableEq, Repr

/-- `Object::new` (object.rs lines 19-28): position 0, no cached metadata. -/
def Object.new (bucket_name key : String) : Object :=
  { bucket_name := bucket_name, key := key, position := 0,
    length := none, last_modified := none }

/-- Convenience constructor for concrete test states. -/
def mkObject (pos : Nat) (len : Option Nat) : Object :=
  { bucket_name := "bucket", key := "key", position := pos,
    length := len, last_modified := none }

/-- The `aws_sdk_s3::types::SdkError<HeadObjectError>` shapes distinguished by
`refresh_metadata` (object.rs lines 73-86): a service error carrying an
optional error code, or any other transport-level variant. -/
inductive HeadSdkError
  | serviceError (code : Option String)
  | otherVariant
  deriving DecidableEq, Repr

/-- Outcome of the `head_object` request issued by `refresh_metadata`
(object.rs line 71), as reported by the external service: fresh metadata
(`content_length : i64`, optional `last_modified`), or an SDK error. -/
inductive HeadObjectResult
  | success (contentLength : Int) (lastModified : Option Int)
  | failure (e : HeadSdkError)
  deriving DecidableEq, Repr

/-- The string test `code.starts_with("304")` (object.rs line 76), modelled
over the character list so it evaluates by kernel reduction. -/
def strStartsWith (s : String) (p : List Char) : Bool :=
  s.data.take p.length == p

/-- The error type `ObjectOperationError` restricted to the variants
`refresh_metadata` can produce (object.rs lines 104-116): a propagated
`HeadObject` SDK error, or the structured `Other` variant. -/
inductive RefreshError
  | headObject (e : HeadSdkError)
  | other (msg : String) (data : List (String × String))
  deriving DecidableEq, Repr

/-- `Object::refresh_metadata` (object.rs lines 62-101), with the service's
response passed in as `resp`.  A service error whose code starts with "304"
is the not-modified signal and is success without a state change; fresh
metadata sets `length` via `usize::try_from` (failing with the structured
`Other` error) and replaces `last_modified`; every other error propagates. -/
def Object.refresh_metadata (o : Object) (resp : HeadObjectResult) :
    Except RefreshError Object :=
  match resp with
  | .failure e =>
    match e with
    | .serviceError (some c) =>
      if strStartsWith c ['3', '0', '4'] then .ok o else .error (.headObject e)
    | _ => .error (.headObject e)
  | .success cl lm =>
    match usizeTryFromI64 cl with
    | none =>
      .error (.other "object content length does not fit into into a usize"
        [("bucket_name", o.bucket_name), ("key", o.key)])
    | some l => .ok { o with length := some l, last_modified := lm }

/-- The `if self.length.is_none() { ... refresh_metadata ... }` preamble shared
by `read` (object.rs lines 120-129) and `seek` (lines 186-195). -/
def Object.resolveLength (o : Object) (resp : HeadObjectResult) :
    Except RefreshError Object :=
  match o.length with
  | none => o.refresh_metadata resp
  | some _ => .ok o

/-- The `GetObjectErrorKind` values distinguished by `read`
(object.rs lines 153-163), with a catch-all for the non-exhaustive rest. -/
inductive GetObjectErrorKind
  | invalidObjectState
  | noSuchKey
  | unhandled
  | otherKind
  deriving DecidableEq, Repr

/-- The `SdkError<GetObjectError>` variants distinguished by `read`
(object.rs lines 142-166), with a catch-all for the non-exhaustive rest. -/
inductive GetObjectSdkError
  | timeoutError
  | constructionFailure
  | dispatchFailure
  | responseError
  | serviceError (k : GetObjectErrorKind)
  | otherVariant
  deriving DecidableEq, Repr

/-- The `io::ErrorKind` values produced by `read` and `seek`. -/
inductive ErrorKind
  | timedOut
  | other
  | invalidData
  | notFound
  | invalidInput
  deriving DecidableEq, Repr

/-- The error mapping applied by `read` to a failed range fetch
(object.rs lines 141-167). -/
def mapGetObjectError : GetObjectSdkError → ErrorKind
  | .timeoutError => .timedOut
  | .constructionFailure => .other
  | .dispatchFailure => .other
  | .responseError => .other
  | .serviceError .invalidObjectState => .invalidData
  | .serviceError .noSuchKey => .notFound
  | .serviceError .unhandled => .other
  | .serviceError .otherKind => .other
  | .otherVariant => .other

/-- Outcome of the bridged `get_range` plus stream drain inside `read`
(object.rs lines 140, 170): an SDK error from the fetch, a failure while
collecting the stream, or the collected bytes. -/
inductive RangeFetchResult
  | sdkErr (e : GetObjectSdkError)
  | collectErr
  | bytes (bs : List Nat)
  deriving DecidableEq, Repr

/-- A panic of the source program: an `Option::unwrap` on `None`, or the
slice-bounds panic of `buf[..received_num_bytes].copy_from_slice` when the
service sent more bytes than the buffer holds (object.rs line 175). -/
inductive PanicCause
  | unwrapNone
  | copyOverflow
  deriving DecidableEq, Repr

/-- Result of `Read::read`: a successful byte count with the updated object,
an `io::Error` of the given kind with the object as left behind, or a panic. -/
inductive ReadOutcome
  | ok (count : Nat) (o : Object)
  | ioErr (k : ErrorKind) (o : Object)
  | panicked (c : PanicCause)
  deriving DecidableEq, Repr

/-- The body of `Read::read` after the metadata preamble (object.rs lines
130-180).  `svc` is the external service's response to the range fetch, as a
function of the issued inclusive range; `bufLen` is `buf.len()`. -/
def Object.readNoRefresh (o : Object) (bufLen : Nat)
    (svc : Nat → Nat → RangeFetchResult) : ReadOutcome :=
  match o.length with
  | none => .panicked .unwrapNone
  | some l =>
    if l ≤ o.position then .ok 0 o
    else
      match svc o.position (readRangeEnd o.position bufLen) with
      | .sdkErr e => .ioErr (mapGetObjectError e) o
      | .collectErr => .ioErr .other o
      | .bytes bs =>
        if bufLen < bs.length then .panicked .copyOverflow
        else .ok bs.length { o with position := o.position + bs.length }

/-- `Read::read for Object` (object.rs lines 118-182): resolve the length if
unresolved (a refresh failure is returned as a generic `io::Error`), then run
the fetch-and-copy body. -/
def Object.read (o : Object) (resp : HeadObjectResult) (bufLen : Nat)
    (svc : Nat → Nat → RangeFetchResult) : ReadOutcome :=
  match o.resolveLength resp with
  | .error _ => .ioErr .other o
  | .ok o' => o'.readNoRefresh bufLen svc

/-- The three `io::SeekFrom` reference points: `Start` carries a `u64`,
`End` and `Current` carry an `i64`. -/
inductive SeekFrom
  | start (s : Nat)
  | fromEnd (s : Int)
  | current (s : Int)
  deriving DecidableEq, Repr

/-- Result of `Seek::seek`: the new position (as returned) with the updated
object, an `io::Error` of the given kind with the object as left behind, or a
panic. -/
inductive SeekOutcome
  | ok (newPos : Nat) (o : Object)
  | err (k : ErrorKind) (o : Object)
  | panicked (c : PanicCause)
  deriving DecidableEq, Repr

/-- The final `u64::try_from(self.position)` conversion that produces `seek`'s
return value (object.rs lines 261-263). -/
def finishSeek (o : Object) : SeekOutcome :=
  match u64TryFromUsize o.position with
  | none => .err .other o
  | some p => .ok p o

/-- The `SeekFrom::Start` branch of `seek` (object.rs lines 197-207), given the
resolved length `l`: clamp to `l` when the offset exceeds it, otherwise convert
the offset back to `usize`; then return the new position. -/
def Object.seekStart (o : Object) (l s : Nat) : SeekOutcome :=
  match u64TryFromUsize l with
  | none => .err .other o
  | some lu =>
    if s > lu then finishSeek { o with position := l }
    else
      match usizeTryFromU64 s with
      | none => .err .other o
      | some p => finishSeek { o with position := p }

/-- The body of `Seek::seek` after the metadata preamble (object.rs lines
196-264).  The `End`/`Current` branches with non-negative offset re-enter the
`Start` branch exactly as the source's recursive `self.seek(SeekFrom::Start(..))`
calls do; each `self.length.unwrap()` of the source is an explicit match. -/
def Object.seekNoRefresh (o : Object) : SeekFrom → SeekOutcome
  | .start s =>
    match o.length with
    | none => .panicked .unwrapNone
    | some l => o.seekStart l s
  | .fromEnd s =>
    if 0 ≤ s then
      match o.length with
      | none => .panicked .unwrapNone
      | some l =>
        match u64TryFromUsize l with
        | none => .err .other o
        | some lu => o.seekStart l lu
    else
      match usizeTryFromI64 (wrapNegI64 s) with
      | none => .err .other o
      | some m =>
        match o.length with
        | none => .panicked .unwrapNone
        | some l =>
          if m > l then .err .invalidInput o
          else finishSeek { o with position := l - m }
  | .current s =>
    if 0 ≤ s then
      match u64TryFromUsize o.position with
      | none => .err .other o
      | some pu =>
        match o.length with
        | none => .panicked .unwrapNone
        | some l => o.seekStart l (wrapAddU64 pu s.toNat)
    else
      match usizeTryFromI64 (wrapNegI64 s) with
      | none => .err .other o
      | some m =>
        if m > o.position then .err .invalidInput o
        else finishSeek { o with position := o.position - m }

/-- `Seek::seek for Object` (object.rs lines 184-265): resolve the length if
unresolved (a refresh failure is returned as a generic `io::Error`), then run
the positioning body. -/
def Object.seek (o : Object) (resp : HeadObjectResult) (pos : SeekFrom) :
    SeekOutcome :=
  match o.resolveLength resp with
  | .error _ => .err .other o
  | .ok o' => o'.seekNoRefresh pos

/-- Boundary behaviour of the remote service for a range fetch, as the spec
fixes it in its sections 6 and 8: the response body for the inclusive range
`bytes=a-b` against an object whose full content is `content` holds the bytes
at offsets `a` through `min b (content.length - 1)`. -/
def serviceRangeBytes (content : List Nat) (a b : Nat) : List Nat :=
  (content.drop a).take (b + 1 - a)

/-- A range-fetch oracle for an object of content `content` served faithfully
per the boundary contract, with the stream drained successfully. -/
def s3RangeService (content : List Nat) : Nat → Nat → RangeFetchResult :=
  fun a b => .bytes (serviceRangeBytes content a b)

/-- Transcription of the seek rules exactly as the spec words them in its
section 4.2, over unbounded integers: `none` is the invalid-input failure.
Used only to compare the implementation's checked machine arithmetic against
the spec's ideal arithmetic. -/
def seekSpec (position l : Nat) : SeekFrom → Option Nat
  | .start s => some (min s l)
  | .fromEnd s =>
    if 0 ≤ s then some l
    else if l < s.natAbs then none else some (l - s.natAbs)
  | .current s =>
    if 0 ≤ s then some (min (position + s.toNat) l)
    else if position < s.natAbs then none else some (position - s.natAbs)

/-- Machine domain of a seek offset: `Start` carries a `u64`, `End` and
`Current` carry an `i64`. -/
def SeekDom : SeekFrom → Prop
  | .start s => s ≤ U64_MAX
  | .fromEnd s => I64_MIN ≤ s ∧ s ≤ I64_MAX
  | .current s => I64_MIN ≤ s ∧ s ≤ I64_MAX


end S3Res

namespace S3Res

-- Reduction of the metadata preamble when the length is already resolved.
theorem seek_of_some (o : Object) (l : Nat) (resp : HeadObjectResult)
    (pos : SeekFrom) (hl : o.length = some l) :
    o.seek resp pos = o.seekNoRefresh pos := by
  simp [Object.seek, Object.resolveLength, hl]

theorem read_of_some (o : Object) (l : Nat) (resp : HeadObjectResult)
    (bufLen : Nat) (svc : Nat → Nat → RangeFetchResult) (hl : o.length = some l) :
    o.read resp bufLen svc = o.readNoRefresh bufLen svc := by
  simp [Object.read, Object.resolveLength, hl]

-- The Start branch on an in-range offset.
theorem seekStart_le (o : Object) (l s : Nat) (hlen : l ≤ U64_MAX) (hs : s ≤ l) :
    o.seekStart l s = .ok s { o with position := s } := by
  have hsU : s ≤ USIZE_MAX := by
    simp only [USIZE_MAX]; simp only [U64_MAX] at hlen; omega
  have hsU64 : s ≤ U64_MAX := by
    simp only [U64_MAX] at *; omega
  have hns : ¬ s > l := by omega
  simp [Object.seekStart, u64TryFromUsize, usizeTryFromU64, finishSeek,
    hlen, hsU, hsU64, hns]

-- The Start branch on an offset past the end: clamps.
theorem seekStart_gt (o : Object) (l s : Nat) (hlen : l ≤ U64_MAX) (hs : l < s) :
    o.seekStart l s = .ok l { o with position := l } := by
  have hgt : s > l := hs
  simp [Object.seekStart, u64TryFromUsize, finishSeek, hlen, hgt]

/-- C4: with resolved length, `seek(Start, s)` sets the position to `s` when
`s ≤ length` and clamps it to `length` (successfully, without an error) when
`s > length`, returning the new position in both cases. -/
theorem seek_start_clamps (o : Object) (l s : Nat) (resp : HeadObjectResult)
    (hl : o.length = some l) (hlen : l ≤ USIZE_MAX) :
    (s ≤ l → o.seek resp (.start s) = .ok s { o with position := s })
    ∧ (l < s → o.seek resp (.start s) = .ok l { o with position := l }) := by
  have hlen' : l ≤ U64_MAX := hlen
  constructor
  · intro hs
    rw [seek_of_some o l resp _ hl]
    simp only [Object.seekNoRefresh, hl]
    rw [seekStart_le o l s hlen' hs, hl]
  · intro hs
    rw [seek_of_some o l resp _ hl]
    simp only [Object.seekNoRefresh, hl]
    rw [seekStart_gt o l s hlen' hs, hl]

/-- C4 witness: seeking to 3 inside a 10-byte object lands on 3; seeking to
100 clamps to 10. -/
theorem seek_start_clamps_witness :
    (mkObject 7 (some 10)).seek (.failure .otherVariant) (.start 3)
      = .ok 3 { mkObject 7 (some 10) with position := 3 } :=
  (seek_start_clamps (mkObject 7 (some 10)) 10 3 (.failure .otherVariant)
    rfl (by simp [USIZE_MAX])).1 (by omega)

/-- C5: with resolved length, `seek(End, s)` for `s ≥ 0` behaves exactly as
`seek(Start, length)`: same outcome, same resulting state. -/
theorem seek_end_nonneg_eq_start_length (o : Object) (l : Nat) (s : Int)
    (resp : HeadObjectResult) (hl : o.length = some l) (hs : 0 ≤ s) :
    o.seek resp (.fromEnd s) = o.seek resp (.start l) := by
  rw [seek_of_some o l resp _ hl, seek_of_some o l resp _ hl]
  simp only [Object.seekNoRefresh, hl, if_pos hs]
  by_cases hcap : l ≤ U64_MAX
  · simp [u64TryFromUsize, hcap]
  · simp [u64TryFromUsize, hcap, Object.seekStart]

/-- C5 witness: in a 10-byte object, `seek(End, 2)` and `seek(Start, 10)`
coincide. -/
theorem seek_end_nonneg_eq_start_length_witness :
    (mkObject 4 (some 10)).seek (.failure .otherVariant) (.fromEnd 2)
      = (mkObject 4 (some 10)).seek (.failure .otherVariant) (.start 10) :=
  seek_end_nonneg_eq_start_length (mkObject 4 (some 10)) 10 2
    (.failure .otherVariant) rfl (by omega)

/-- C6: with resolved length and `position ≥ length`, `read` succeeds with a
zero byte count and leaves the object (in particular its position) unchanged,
for every buffer and every service behaviour. -/
theorem read_eof_zero (o : Object) (l : Nat) (resp : HeadObjectResult)
    (bufLen : Nat) (svc : Nat → Nat → RangeFetchResult)
    (hl : o.length = some l) (hpos : l ≤ o.position) :
    o.read resp bufLen svc = .ok 0 o := by
  simp [Object.read, Object.resolveLength, Object.readNoRefresh, hl, hpos]

/-- C6 witness: reading at position 10 of a 10-byte object returns 0 and does
not move. -/
theorem read_eof_zero_witness :
    (mkObject 10 (some 10)).read (.failure .otherVariant) 5
      (s3RangeService [0, 1, 2, 3, 4, 5, 6, 7, 8, 9]) = .ok 0 (mkObject 10 (some 10)) :=
  read_eof_zero (mkObject 10 (some 10)) 10 (.failure .otherVariant) 5
    (s3RangeService [0, 1, 2, 3, 4, 5, 6, 7, 8, 9]) rfl (by decide)



/-- C7: `refresh_metadata` has exactly three outcomes: a service error whose
code signals not-modified is success with the state (length, last modified)
unchanged; fresh metadata sets `length` from the reported content length,
failing with the structured internal error carrying `bucket_name` and `key`
when that length does not fit `usize`, and updates `last_modified`; any other
error is propagated unchanged. -/
theorem refresh_metadata_outcomes (o : Object) (resp : HeadObjectResult) :
    (∀ c, resp = .failure (.serviceError (some c)) →
        strStartsWith c ['3', '0', '4'] = true →
        o.refresh_metadata resp = .ok o)
    ∧ (∀ cl lm, resp = .success cl lm →
        (∀ L, usizeTryFromI64 cl = some L →
            o.refresh_metadata resp
              = .ok { o with length := some L, last_modified := lm })
        ∧ (usizeTryFromI64 cl = none →
            o.refresh_metadata resp
              = .error (.other "object content length does not fit into into a usize"
                  [("bucket_name", o.bucket_name), ("key", o.key)])))
    ∧ (∀ e, resp = .failure e →
        (∀ c, e = .serviceError (some c) → strStartsWith c ['3', '0', '4'] = false) →
        o.refresh_metadata resp = .error (.headObject e)) := by
  refine ⟨?_, ?_, ?_⟩
  · rintro c rfl h3
    simp [Object.refresh_metadata, h3]
  · rintro cl lm rfl
    constructor
    · rintro L hL
      simp [Object.refresh_metadata, hL]
    · intro hN
      simp [Object.refresh_metadata, hN]
  · rintro e rfl hno
    cases e with
    | serviceError code =>
      cases code with
      | none => simp [Object.refresh_metadata]
      | some c =>
        have h := hno c rfl
        simp [Object.refresh_metadata, h]
    | otherVariant => simp [Object.refresh_metadata]

/-- C7 witness: fresh metadata with content length 42 resolves the length and
updates the timestamp. -/
theorem refresh_metadata_outcomes_witness :
    (mkObject 0 none).refresh_metadata (.success 42 (some 5))
      = .ok { mkObject 0 none with length := some 42, last_modified := some 5 } :=
  ((refresh_metadata_outcomes (mkObject 0 none) (.success 42 (some 5))).2.1
    42 (some 5) rfl).1 42 (by decide)

/-- C8: a failing range fetch inside `read` is mapped into the io error
taxonomy exactly as: timeout to timed-out; construction, dispatch or response
failure to the generic kind; invalid object state to invalid-data; no such key
to not-found; unhandled to the generic kind; a stream-drain failure also to
the generic kind; and the failing call leaves the object (in particular its
position) unchanged. -/
theorem read_error_mapping (o : Object) (l : Nat) (resp : HeadObjectResult)
    (bufLen : Nat) (hl : o.length = some l) (hpos : o.position < l) :
    (∀ e, o.read resp bufLen (fun _ _ => .sdkErr e) = .ioErr (mapGetObjectError e) o)
    ∧ o.read resp bufLen (fun _ _ => .collectErr) = .ioErr .other o
    ∧ mapGetObjectError .timeoutError = .timedOut
    ∧ mapGetObjectError .constructionFailure = .other
    ∧ mapGetObjectError .dispatchFailure = .other
    ∧ mapGetObjectError .responseError = .other
    ∧ mapGetObjectError (.serviceError .invalidObjectState) = .invalidData
    ∧ mapGetObjectError (.serviceError .noSuchKey) = .notFound
    ∧ mapGetObjectError (.serviceError .unhandled) = .other := by
  have hng : ¬ l ≤ o.position := by omega
  refine ⟨?_, ?_, rfl, rfl, rfl, rfl, rfl, rfl, rfl⟩
  · intro e
    rw [read_of_some o l resp bufLen _ hl]
    simp [Object.readNoRefresh, hl, hng]
  · rw [read_of_some o l resp bufLen _ hl]
    simp [Object.readNoRefresh, hl, hng]

/-- C8 witness: a timed-out range fetch surfaces as a timed-out io error with
the position unchanged. -/
theorem read_error_mapping_witness :
    (mkObject 2 (some 10)).read (.failure .otherVariant) 4
      (fun _ _ => .sdkErr .timeoutError)
      = .ioErr (mapGetObjectError .timeoutError) (mkObject 2 (some 10)) :=
  (read_error_mapping (mkObject 2 (some 10)) 10 (.failure .otherVariant) 4
    rfl (by decide)).1 .timeoutError

/-- C9: when `length` is unresolved both `read` and `seek` first run the
metadata refresh: a refresh failure is surfaced as a generic io error with the
object unchanged, and on refresh success the call proceeds on exactly the
refreshed state. -/
theorem implicit_refresh_on_unresolved (o : Object) (resp : HeadObjectResult)
    (bufLen : Nat) (svc : Nat → Nat → RangeFetchResult) (pos : SeekFrom)
    (hl : o.length = none) :
    (∀ e, o.refresh_metadata resp = .error e →
        o.read resp bufLen svc = .ioErr .other o
        ∧ o.seek resp pos = .err .other o)
    ∧ (∀ o', o.refresh_metadata resp = .ok o' →
        o.read resp bufLen svc = o'.readNoRefresh bufLen svc
        ∧ o.seek resp pos = o'.seekNoRefresh pos) := by
  constructor
  · intro e he
    constructor
    · simp [Object.read, Object.resolveLength, hl, he]
    · simp [Object.seek, Object.resolveLength, hl, he]
  · intro o' ho
    constructor
    · simp [Object.read, Object.resolveLength, hl, ho]
    · simp [Object.seek, Object.resolveLength, hl, ho]

/-- C9 witness: with unresolved length and a failing metadata request, both
read and seek return a generic io error and leave the object unchanged. -/
theorem implicit_refresh_on_unresolved_witness :
    (mkObject 0 none).read (.failure .otherVariant) 3 (s3RangeService [1, 2])
      = .ioErr .other (mkObject 0 none)
    ∧ (mkObject 0 none).seek (.failure .otherVariant) (.start 1)
      = .err .other (mkObject 0 none) :=
  (implicit_refresh_on_unresolved (mkObject 0 none) (.failure .otherVariant) 3
      (s3RangeService [1, 2]) (.start 1) rfl).1 (.headObject .otherVariant) rfl


-- Checked conversions succeed on in-range inputs.
theorem u64TryFromUsize_eq (n : Nat) (h : n ≤ U64_MAX) :
    u64TryFromUsize n = some n := by
  rw [u64TryFromUsize, if_pos h]

theorem usizeTryFromU64_eq (n : Nat) (h : n ≤ USIZE_MAX) :
    usizeTryFromU64 n = some n := by
  rw [usizeTryFromU64, if_pos h]

-- Negating a representable negative offset and converting yields its magnitude.
theorem usizeTryFromI64_neg (s : Int) (hs : s < 0) (hm : I64_MIN < s) :
    usizeTryFromI64 (wrapNegI64 s) = some s.natAbs := by
  have hne : s ≠ I64_MIN := by
    intro h
    rw [h] at hm
    exact lt_irrefl _ hm
  rw [wrapNegI64, if_neg hne, usizeTryFromI64, if_pos]
  · congr 1
    omega
  · constructor
    · omega
    · simp only [USIZE_MAX, I64_MIN] at *
      push_cast
      omega

-- Negating i64::MIN wraps and the conversion then fails.
theorem usizeTryFromI64_min : usizeTryFromI64 (wrapNegI64 I64_MIN) = none := by
  decide

-- The trailing return conversion on an in-range position.
theorem finishSeek_eq (o : Object) (h : o.position ≤ U64_MAX) :
    finishSeek o = .ok o.position o := by
  unfold finishSeek
  rw [u64TryFromUsize_eq _ h]

/-- C3 (amended): with resolved length, `seek(End, s)` for `i64::MIN < s < 0`
sets the position to `length - |s|` when `|s| ≤ length` and fails with
invalid-input leaving the position unchanged when `|s| > length`; likewise
`seek(Current, s)` against the current position.  At `s = i64::MIN` the
unchecked negation of the offset overflows, so the failing call reports the
generic conversion error instead of invalid-input, still leaving the position
unchanged. -/
theorem seek_negative_offsets (o : Object) (l : Nat) (s : Int)
    (resp : HeadObjectResult) (hl : o.length = some l) (hlen : l ≤ USIZE_MAX)
    (hposM : o.position ≤ USIZE_MAX) (hs : s < 0) (hdom : I64_MIN ≤ s) :
    (s ≠ I64_MIN → s.natAbs ≤ l →
        o.seek resp (.fromEnd s)
          = .ok (l - s.natAbs) { o with position := l - s.natAbs })
    ∧ (s ≠ I64_MIN → l < s.natAbs →
        o.seek resp (.fromEnd s) = .err .invalidInput o)
    ∧ (s ≠ I64_MIN → s.natAbs ≤ o.position →
        o.seek resp (.current s)
          = .ok (o.position - s.natAbs) { o with position := o.position - s.natAbs })
    ∧ (s ≠ I64_MIN → o.position < s.natAbs →
        o.seek resp (.current s) = .err .invalidInput o)
    ∧ (s = I64_MIN →
        o.seek resp (.fromEnd s) = .err .other o
        ∧ o.seek resp (.current s) = .err .other o) := by
  obtain ⟨bn, k, p, len, lm⟩ := o
  replace hl : len = some l := hl
  replace hposM : p ≤ USIZE_MAX := hposM
  subst hl
  have hns : ¬ (0 ≤ s) := by omega
  have hlenU : l ≤ U64_MAX := hlen
  refine ⟨?_, ?_, ?_, ?_, ?_⟩
  · intro hmin hle
    have hm : I64_MIN < s := lt_of_le_of_ne hdom (Ne.symm hmin)
    have hng : ¬ (s.natAbs > l) := by omega
    have hfit : l - s.natAbs ≤ U64_MAX := by
      simp only [U64_MAX, USIZE_MAX] at *
      omega
    rw [seek_of_some _ l resp _ rfl]
    simp only [Object.seekNoRefresh, if_neg hns, usizeTryFromI64_neg s hs hm,
      if_neg hng]
    rw [finishSeek_eq _ hfit]
  · intro hmin hgt
    have hm : I64_MIN < s := lt_of_le_of_ne hdom (Ne.symm hmin)
    have hg : s.natAbs > l := hgt
    rw [seek_of_some _ l resp _ rfl]
    simp only [Object.seekNoRefresh, if_neg hns, usizeTryFromI64_neg s hs hm,
      if_pos hg]
  · intro hmin hle
    replace hle : s.natAbs ≤ p := hle
    have hm : I64_MIN < s := lt_of_le_of_ne hdom (Ne.symm hmin)
    have hng : ¬ (s.natAbs > p) := by omega
    have hfit : p - s.natAbs ≤ U64_MAX := by
      simp only [U64_MAX, USIZE_MAX] at *
      omega
    rw [seek_of_some _ l resp _ rfl]
    simp only [Object.seekNoRefresh, if_neg hns, usizeTryFromI64_neg s hs hm,
      if_neg hng]
    rw [finishSeek_eq _ hfit]
  · intro hmin hgt
    replace hgt : p < s.natAbs := hgt
    have hm : I64_MIN < s := lt_of_le_of_ne hdom (Ne.symm hmin)
    have hg : s.natAbs > p := hgt
    rw [seek_of_some _ l resp _ rfl]
    simp only [Object.seekNoRefresh, if_neg hns, usizeTryFromI64_neg s hs hm,
      if_pos hg]
  · intro hmin
    subst hmin
    constructor
    · rw [seek_of_some _ l resp _ rfl]
      simp only [Object.seekNoRefresh, if_neg hns, usizeTryFromI64_min]
    · rw [seek_of_some _ l resp _ rfl]
      simp only [Object.seekNoRefresh, if_neg hns, usizeTryFromI64_min]

/-- C3 counterexample: in a 10-byte object, `seek(End, i64::MIN)` has
`|s| > length` yet fails with the generic conversion error, not the
invalid-input error the claim asserts for every `s < 0` with `|s| > length`. -/
theorem seek_end_i64min_cex :
    (mkObject 3 (some 10)).seek (.failure .otherVariant) (.fromEnd I64_MIN)
      = .err .other (mkObject 3 (some 10))
    ∧ (mkObject 3 (some 10)).seek (.failure .otherVariant) (.fromEnd I64_MIN)
      ≠ .err .invalidInput (mkObject 3 (some 10)) := by
  constructor
  · decide
  · decide

/-- C3 witness: in a 10-byte object at position 3, `seek(End, -4)` lands on 6
and `seek(Current, -4)` fails with invalid-input. -/
theorem seek_negative_offsets_witness :
    (mkObject 3 (some 10)).seek (.failure .otherVariant) (.fromEnd (-4))
      = .ok 6 { mkObject 3 (some 10) with position := 6 } :=
  (seek_negative_offsets (mkObject 3 (some 10)) 10 (-4) (.failure .otherVariant)
      rfl (by decide) (by decide) (by decide) (by decide)).1
    (by decide) (by decide)


-- The resolved seek agrees with the spec's unbounded arithmetic over the
-- whole machine domain of offsets: every success carries the ideal value and
-- every offset the ideal arithmetic rejects is answered with an error.
theorem seekNoRefresh_spec (bn k : String) (lm : Option Int) (p l : Nat)
    (pos : SeekFrom) (hlen : l < 9223372036854775808)
    (hpos : p < 9223372036854775808) (hdom : SeekDom pos) :
    (∀ q, seekSpec p l pos = some q →
        Object.seekNoRefresh ⟨bn, k, p, some l, lm⟩ pos
          = .ok q ⟨bn, k, q, some l, lm⟩)
    ∧ (seekSpec p l pos = none →
        ∃ kk, Object.seekNoRefresh ⟨bn, k, p, some l, lm⟩ pos
          = .err kk ⟨bn, k, p, some l, lm⟩) := by
  have hlenU : l ≤ U64_MAX := by
    simp only [U64_MAX]
    omega
  cases pos with
  | start su =>
    replace hdom : su ≤ U64_MAX := hdom
    constructor
    · intro q hq
      simp only [seekSpec, Option.some.injEq] at hq
      subst hq
      by_cases hc : su ≤ l
      · have hmin : min su l = su := by omega
        rw [hmin]
        simp only [Object.seekNoRefresh]
        exact seekStart_le _ l su hlenU hc
      · have hmin : min su l = l := by omega
        rw [hmin]
        simp only [Object.seekNoRefresh]
        exact seekStart_gt _ l su hlenU (by omega)
    · intro hq
      simp only [seekSpec] at hq
      exact Option.noConfusion hq
  | fromEnd s =>
    replace hdom : I64_MIN ≤ s ∧ s ≤ I64_MAX := hdom
    obtain ⟨hd1, hd2⟩ := hdom
    by_cases hsn : 0 ≤ s
    · constructor
      · intro q hq
        simp only [seekSpec, if_pos hsn, Option.some.injEq] at hq
        subst hq
        simp only [Object.seekNoRefresh, if_pos hsn, u64TryFromUsize_eq l hlenU]
        exact seekStart_le _ l l hlenU le_rfl
      · intro hq
        simp only [seekSpec, if_pos hsn] at hq
        exact Option.noConfusion hq
    · have hslt : s < 0 := by omega
      by_cases hmin : s = I64_MIN
      · subst hmin
        have hnabs : (I64_MIN).natAbs = 9223372036854775808 := by decide
        constructor
        · intro q hq
          exfalso
          simp only [seekSpec, if_neg hsn, hnabs] at hq
          rw [if_pos (by omega)] at hq
          exact Option.noConfusion hq
        · intro _
          refine ⟨.other, ?_⟩
          simp only [Object.seekNoRefresh, if_neg hsn, usizeTryFromI64_min]
      · have hm : I64_MIN < s := lt_of_le_of_ne hd1 (Ne.symm hmin)
        constructor
        · intro q hq
          simp only [seekSpec, if_neg hsn] at hq
          by_cases hgl : l < s.natAbs
          · rw [if_pos hgl] at hq
            exact Option.noConfusion hq
          · rw [if_neg hgl] at hq
            injection hq with hq
            subst hq
            have hfit : l - s.natAbs ≤ U64_MAX := by
              simp only [U64_MAX] at *
              omega
            simp only [Object.seekNoRefresh, if_neg hsn,
              usizeTryFromI64_neg s hslt hm, if_neg (by omega : ¬ s.natAbs > l)]
            exact finishSeek_eq _ hfit
        · intro hq
          simp only [seekSpec, if_neg hsn] at hq
          by_cases hgl : l < s.natAbs
          · refine ⟨.invalidInput, ?_⟩
            simp only [Object.seekNoRefresh, if_neg hsn,
              usizeTryFromI64_neg s hslt hm, if_pos (by omega : s.natAbs > l)]
          · rw [if_neg hgl] at hq
            exact Option.noConfusion hq
  | current s =>
    replace hdom : I64_MIN ≤ s ∧ s ≤ I64_MAX := hdom
    obtain ⟨hd1, hd2⟩ := hdom
    have hpU : u64TryFromUsize p = some p := by
      apply u64TryFromUsize_eq
      simp only [U64_MAX]
      omega
    by_cases hsn : 0 ≤ s
    · have hadd : wrapAddU64 p s.toNat = p + s.toNat := by
        simp only [wrapAddU64, U64_MOD]
        simp only [I64_MAX] at hd2
        omega
      constructor
      · intro q hq
        simp only [seekSpec, if_pos hsn, Option.some.injEq] at hq
        subst hq
        simp only [Object.seekNoRefresh, if_pos hsn, hpU, hadd]
        by_cases hc : p + s.toNat ≤ l
        · have hmin : min (p + s.toNat) l = p + s.toNat := by omega
          rw [hmin]
          exact seekStart_le _ l _ hlenU hc
        · have hmin : min (p + s.toNat) l = l := by omega
          rw [hmin]
          exact seekStart_gt _ l _ hlenU (by omega)
      · intro hq
        simp only [seekSpec, if_pos hsn] at hq
        exact Option.noConfusion hq
    · have hslt : s < 0 := by omega
      by_cases hmin : s = I64_MIN
      · subst hmin
        have hnabs : (I64_MIN).natAbs = 9223372036854775808 := by decide
        constructor
        · intro q hq
          exfalso
          simp only [seekSpec, if_neg hsn, hnabs] at hq
          rw [if_pos (by omega)] at hq
          exact Option.noConfusion hq
        · intro _
          refine ⟨.other, ?_⟩
          simp only [Object.seekNoRefresh, if_neg hsn, usizeTryFromI64_min]
      · have hm : I64_MIN < s := lt_of_le_of_ne hd1 (Ne.symm hmin)
        constructor
        · intro q hq
          simp only [seekSpec, if_neg hsn] at hq
          by_cases hgl : p < s.natAbs
          · rw [if_pos hgl] at hq
            exact Option.noConfusion hq
          · rw [if_neg hgl] at hq
            injection hq with hq
            subst hq
            have hfit : p - s.natAbs ≤ U64_MAX := by
              simp only [U64_MAX] at *
              omega
            simp only [Object.seekNoRefresh, if_neg hsn,
              usizeTryFromI64_neg s hslt hm, if_neg (by omega : ¬ s.natAbs > p)]
            exact finishSeek_eq _ hfit
        · intro hq
          simp only [seekSpec, if_neg hsn] at hq
          by_cases hgl : p < s.natAbs
          · refine ⟨.invalidInput, ?_⟩
            simp only [Object.seekNoRefresh, if_neg hsn,
              usizeTryFromI64_neg s hslt hm, if_pos (by omega : s.natAbs > p)]
          · rw [if_neg hgl] at hq
            exact Option.noConfusion hq

/-- C2: with resolved length and position within the `i64` range a reported
content length imposes, `seek(Current, s)` for `s ≥ 0` computes exactly
`seek(Start, position + s)`; moreover, over the whole machine domain of
offsets, every successful seek returns exactly the position the spec's
unbounded arithmetic prescribes (never a silently wrapped value) and every
offset that arithmetic rejects is answered with a reported error, the state
left unchanged. -/
theorem seek_current_nonneg_checked (o : Object) (l : Nat) (s : Int)
    (resp : HeadObjectResult) (pos : SeekFrom) (hl : o.length = some l)
    (hlen : l < 9223372036854775808) (hpos : o.position < 9223372036854775808)
    (hs0 : 0 ≤ s) (hs1 : s ≤ I64_MAX) (hdom : SeekDom pos) :
    o.seek resp (.current s) = o.seek resp (.start (o.position + s.toNat))
    ∧ (∀ q o', o.seek resp pos = .ok q o' →
        seekSpec o.position l pos = some q ∧ o' = { o with position := q })
    ∧ (seekSpec o.position l pos = none →
        ∃ kk, o.seek resp pos = .err kk o) := by
  obtain ⟨bn, k, p, len, lm⟩ := o
  replace hl : len = some l := hl
  replace hpos : p < 9223372036854775808 := hpos
  subst hl
  have hspec := seekNoRefresh_spec bn k lm p l pos hlen hpos hdom
  refine ⟨?_, ?_, ?_⟩
  · rw [seek_of_some _ l resp _ rfl, seek_of_some _ l resp _ rfl]
    have hpU : u64TryFromUsize p = some p := by
      apply u64TryFromUsize_eq
      simp only [U64_MAX]
      omega
    have hadd : wrapAddU64 p s.toNat = p + s.toNat := by
      simp only [wrapAddU64, U64_MOD]
      simp only [I64_MAX] at hs1
      omega
    simp only [Object.seekNoRefresh, if_pos hs0, hpU, hadd]
  · intro q o' h
    rw [seek_of_some _ l resp _ rfl] at h
    cases hsp : seekSpec p l pos with
    | some q2 =>
      rw [hspec.1 q2 hsp] at h
      injection h with h1 h2
      subst h1
      subst h2
      exact ⟨rfl, rfl⟩
    | none =>
      obtain ⟨kk, hkk⟩ := hspec.2 hsp
      rw [hkk] at h
      exact SeekOutcome.noConfusion h
  · intro hsp
    obtain ⟨kk, hkk⟩ := hspec.2 hsp
    refine ⟨kk, ?_⟩
    rw [seek_of_some _ l resp _ rfl]
    exact hkk

/-- C2 witness: at position 2 in a 10-byte object, `seek(Current, 3)` equals
`seek(Start, 5)`. -/
theorem seek_current_nonneg_checked_witness :
    (mkObject 2 (some 10)).seek (.failure .otherVariant) (.current 3)
      = (mkObject 2 (some 10)).seek (.failure .otherVariant) (.start 5) :=
  (seek_current_nonneg_checked (mkObject 2 (some 10)) 10 3 (.failure .otherVariant)
      (.start 5) rfl (by omega) (by decide) (by decide) (by decide)
      (by change (5 : Nat) ≤ U64_MAX; decide)).1


-- Exact value of the wrapped range-end computation on in-range inputs.
theorem readRangeEnd_eq (p n : Nat) (h1 : 1 ≤ p + n) (h2 : p + n ≤ U64_MOD) :
    readRangeEnd p n = p + n - 1 := by
  simp only [readRangeEnd, USIZE_MAX, U64_MOD] at *
  omega

-- Length of a faithfully served inclusive range.
theorem serviceRangeBytes_length (content : List Nat) (a b : Nat) :
    (serviceRangeBytes content a b).length
      = min (b + 1 - a) (content.length - a) := by
  simp [serviceRangeBytes]

/-- C1 (amended): with resolved length equal to the true content length,
`position < length`, and `position + len(buf) ≥ 1` (every call except the
empty-buffer read at position zero, whose range computation underflows
instead), `read` consults the service only at the inclusive range
`[position, position + len(buf) - 1]` and, against a faithful service,
succeeds with exactly `min (len(buf)) (length - position)` bytes, advancing
`position` by that count, which is never more than `len(buf)` nor more than
`length - position`. -/
theorem read_advances_by_bytes_received (content : List Nat) (o : Object)
    (resp : HeadObjectResult) (bufLen : Nat)
    (hl : o.length = some content.length) (hpos : o.position < content.length)
    (hbuf : 1 ≤ o.position + bufLen) (hcap : o.position + bufLen ≤ U64_MOD) :
    readRangeEnd o.position bufLen = o.position + bufLen - 1
    ∧ (∀ svcA svcB : Nat → Nat → RangeFetchResult,
        svcA o.position (o.position + bufLen - 1)
          = svcB o.position (o.position + bufLen - 1) →
        o.read resp bufLen svcA = o.read resp bufLen svcB)
    ∧ o.read resp bufLen (s3RangeService content)
        = .ok (min bufLen (content.length - o.position))
            { o with position := o.position + min bufLen (content.length - o.position) }
    ∧ min bufLen (content.length - o.position) ≤ bufLen
    ∧ min bufLen (content.length - o.position) ≤ content.length - o.position := by
  obtain ⟨bn, k, p, len, lm⟩ := o
  replace hl : len = some content.length := hl
  replace hpos : p < content.length := hpos
  replace hbuf : 1 ≤ p + bufLen := hbuf
  replace hcap : p + bufLen ≤ U64_MOD := hcap
  subst hl
  have hre : readRangeEnd p bufLen = p + bufLen - 1 := readRangeEnd_eq p bufLen hbuf hcap
  have hng : ¬ (content.length ≤ p) := by omega
  refine ⟨hre, ?_, ?_, Nat.min_le_left _ _, Nat.min_le_right _ _⟩
  · intro svcA svcB hsvc
    rw [read_of_some _ content.length resp bufLen _ rfl,
        read_of_some _ content.length resp bufLen _ rfl]
    simp only [Object.readNoRefresh, if_neg hng, hre]
    rw [hsvc]
  · rw [read_of_some _ content.length resp bufLen _ rfl]
    have hbs : (serviceRangeBytes content p (p + bufLen - 1)).length
        = min bufLen (content.length - p) := by
      rw [serviceRangeBytes_length]
      omega
    simp only [Object.readNoRefresh, if_neg hng, hre, s3RangeService]
    rw [hbs]
    rw [if_neg (by omega : ¬ bufLen < min bufLen (content.length - p))]

/-- C1 counterexample: at position 0 of a 1-byte object with an empty buffer,
`read` does not issue the claimed fetch and advance by the copied count: the
unchecked range computation underflows to `USIZE_MAX`, the faithful service
then returns the whole object, and the copy into the empty buffer panics. -/
theorem read_empty_buf_cex :
    readRangeEnd 0 0 = USIZE_MAX
    ∧ (mkObject 0 (some 1)).read (.failure .otherVariant) 0 (s3RangeService [7])
        = .panicked .copyOverflow := by
  constructor
  · decide
  · decide

/-- C1 witness: reading 5 bytes at position 1 of a 3-byte object receives 2
bytes and advances the position to 3. -/
theorem read_advances_by_bytes_received_witness :
    (mkObject 1 (some 3)).read (.failure .otherVariant) 5 (s3RangeService [9, 8, 7])
      = .ok 2 (mkObject 3 (some 3)) :=
  (read_advances_by_bytes_received [9, 8, 7] (mkObject 1 (some 3))
      (.failure .otherVariant) 5 rfl (by decide) (by decide) (by decide)).2.2.1

/-- C10: with resolved positive length and position 0, an empty-buffer read is
not stopped by the end-of-stream guard: it reaches the range computation
`position + len(buf) - 1`, whose subtraction underflows the unsigned type and
wraps to `USIZE_MAX`, so the issued range is `[0, USIZE_MAX]` and, against a
faithful service, the copy into the empty buffer panics instead of returning
a guarded zero-byte success. -/
theorem read_empty_buffer_underflow (content : List Nat) (o : Object)
    (resp : HeadObjectResult) (hl : o.length = some content.length)
    (hpos : o.position = 0) (hlen : 0 < content.length) :
    readRangeEnd o.position 0 = USIZE_MAX
    ∧ o.read resp 0 (s3RangeService content) = .panicked .copyOverflow
    ∧ ∀ c o2, o.read resp 0 (s3RangeService content) ≠ .ok c o2 := by
  obtain ⟨bn, k, p, len, lm⟩ := o
  replace hl : len = some content.length := hl
  replace hpos : p = 0 := hpos
  replace hlen : 0 < content.length := hlen
  subst hl
  subst hpos
  have hre : readRangeEnd 0 0 = USIZE_MAX := by decide
  have hng : ¬ (content.length ≤ 0) := by omega
  have hbs : 0 < (serviceRangeBytes content 0 USIZE_MAX).length := by
    rw [serviceRangeBytes_length]
    simp only [USIZE_MAX]
    omega
  refine ⟨hre, ?_, ?_⟩
  · rw [read_of_some _ content.length resp 0 _ rfl]
    simp only [Object.readNoRefresh, if_neg hng, hre, s3RangeService]
    rw [if_pos hbs]
  · intro c o2
    rw [read_of_some _ content.length resp 0 _ rfl]
    simp only [Object.readNoRefresh, if_neg hng, hre, s3RangeService]
    rw [if_pos hbs]
    exact fun h => ReadOutcome.noConfusion h

/-- C10 witness: an empty-buffer read at position 0 of a 2-byte object wraps
the range end to `USIZE_MAX` and panics in the copy. -/
theorem read_empty_buffer_underflow_witness :
    readRangeEnd (mkObject 0 (some 2)).position 0 = USIZE_MAX
    ∧ (mkObject 0 (some 2)).read (.failure .otherVariant) 0 (s3RangeService [1, 2])
        = .panicked .copyOverflow :=
  ⟨(read_empty_buffer_underflow [1, 2] (mkObject 0 (some 2)) (.failure .otherVariant)
      rfl rfl (by decide)).1,
   (read_empty_buffer_underflow [1, 2] (mkObject 0 (some 2)) (.failure .otherVariant)
      rfl rfl (by decide)).2.1⟩

end S3Res
